import Mathlib

/-!
Verification of the portfolio-drift checker (`src/main.py`).

The Python program is shallowly embedded: Python dicts become association
lists (`List (String × _)`) in insertion order, floats become exact
rationals `ℚ`, and fallible code returns `Except`.  Every definition below
is translated from the source file; theorems then settle the spec claims.
-/

namespace DriftChecker

/-- A drift alert, as built by `check_drift` in `src/main.py` (lines 199-205).
The Python dict fields `target`, `current`, `drift` store percentages
(fraction × 100); `direction` is the string `"OVER"` or `"UNDER"`. -/
structure Alert where
  ticker : String
  target : ℚ
  current : ℚ
  drift : ℚ
  direction : String
deriving DecidableEq, Repr

/-- `calculate_portfolio_value(holdings, prices)` (lines 163-174): for each
ticker of `holdings` that is present in `prices`, record
`shares * prices[ticker]`; the total is the sum of the recorded values.
Returns `(total_value, position_values)`. -/
def calculate_portfolio_value (holdings prices : List (String × ℚ)) :
    ℚ × List (String × ℚ) :=
  let position_values := holdings.filterMap (fun hp =>
    match prices.lookup hp.1 with
    | some price => some (hp.1, hp.2 * price)
    | none => none)
  ((position_values.map Prod.snd).sum, position_values)

/-- `calculate_current_allocations(position_values, total_value)`
(lines 177-182): every value divided by the total, except that a zero total
yields an all-zero map instead of a division error. -/
def calculate_current_allocations (position_values : List (String × ℚ))
    (total_value : ℚ) : List (String × ℚ) :=
  if total_value = 0 then
    position_values.map (fun p => (p.1, 0))
  else
    position_values.map (fun p => (p.1, p.2 / total_value))

/-- The alert `check_drift` appends for a target entry `(t, target)` given the
current-allocation map `cur` (lines 193-205). -/
def mkAlert (cur : List (String × ℚ)) (t : String) (target : ℚ) : Alert :=
  let current := (cur.lookup t).getD 0
  let drift := current - target
  { ticker := t
    target := target * 100
    current := current * 100
    drift := drift * 100
    direction := if drift > 0 then "OVER" else "UNDER" }

/-- `check_drift(current_allocations, target_allocations, threshold)`
(lines 185-212): iterate the target allocations in order; a ticker absent
from the current allocations counts as `0.0`; append an alert whenever
`|current - target| > threshold`, with direction `"OVER"` for positive
drift and `"UNDER"` otherwise. -/
def check_drift (current_allocations target_allocations : List (String × ℚ))
    (threshold : ℚ) : List Alert :=
  match target_allocations with
  | [] => []
  | (t, target) :: rest =>
    let current := (current_allocations.lookup t).getD 0
    let drift := current - target
    if |drift| > threshold then
      mkAlert current_allocations t target :: check_drift current_allocations rest threshold
    else
      check_drift current_allocations rest threshold

/-! ### Association-list helper lemmas -/

lemma lookup_cons_self {α : Type _} (k : String) (v : α) (l : List (String × α)) :
    ((k, v) :: l).lookup k = some v := by
  simp [List.lookup]

lemma lookup_cons_ne {α : Type _} {t k : String} (h : t ≠ k) (v : α)
    (l : List (String × α)) : ((k, v) :: l).lookup t = l.lookup t := by
  have hb : (t == k) = false := beq_eq_false_iff_ne.mpr h
  simp [List.lookup, hb]

lemma lookup_append_of_some {α : Type _} {l₁ : List (String × α)} {t : String}
    {v : α} (h : l₁.lookup t = some v) (l₂ : List (String × α)) :
    (l₁ ++ l₂).lookup t = some v := by
  induction l₁ with
  | nil => simp [List.lookup] at h
  | cons hd tl ih =>
    obtain ⟨k, w⟩ := hd
    by_cases hk : t = k
    · subst hk
      rw [lookup_cons_self] at h
      simpa [List.cons_append, lookup_cons_self] using h
    · rw [lookup_cons_ne hk] at h
      simpa [List.cons_append, lookup_cons_ne hk] using ih h

lemma lookup_append_of_none {α : Type _} {l₁ : List (String × α)} {t : String}
    (h : l₁.lookup t = none) (l₂ : List (String × α)) :
    (l₁ ++ l₂).lookup t = l₂.lookup t := by
  induction l₁ with
  | nil => simp
  | cons hd tl ih =>
    obtain ⟨k, w⟩ := hd
    by_cases hk : t = k
    · subst hk; rw [lookup_cons_self] at h; exact absurd h (by simp)
    · rw [lookup_cons_ne hk] at h
      simpa [List.cons_append, lookup_cons_ne hk] using ih h

lemma lookup_map_pair {α β : Type _} (l : List (String × α)) (f : String → α → β)
    (t : String) :
    (l.map (fun p => (p.1, f p.1 p.2))).lookup t = (l.lookup t).map (f t) := by
  induction l with
  | nil => simp
  | cons hd tl ih =>
    obtain ⟨k, v⟩ := hd
    by_cases hk : t = k
    · subst hk; simp [lookup_cons_self]
    · simpa [lookup_cons_ne hk] using ih

lemma lookup_mem {α : Type _} {l : List (String × α)} {t : String} {v : α}
    (h : l.lookup t = some v) : (t, v) ∈ l := by
  induction l with
  | nil => simp [List.lookup] at h
  | cons hd tl ih =>
    obtain ⟨k, w⟩ := hd
    by_cases hk : t = k
    · subst hk
      rw [lookup_cons_self] at h
      simp [← Option.some_inj.mp h]
    · rw [lookup_cons_ne hk] at h
      exact List.mem_cons_of_mem _ (ih h)

lemma eq_snd_of_nodup_keys {α : Type _} {l : List (String × α)}
    (h : (l.map Prod.fst).Nodup) {t : String} {v₁ v₂ : α}
    (h₁ : (t, v₁) ∈ l) (h₂ : (t, v₂) ∈ l) : v₁ = v₂ := by
  induction l with
  | nil => simp at h₁
  | cons hd tl ih =>
    simp only [List.map_cons, List.nodup_cons] at h
    rcases List.mem_cons.mp h₁ with e₁ | m₁ <;>
      rcases List.mem_cons.mp h₂ with e₂ | m₂
    · rw [← e₁] at e₂; exact (Prod.mk.injEq _ _ _ _ ▸ e₂).2.symm ▸ rfl
    · exact absurd (List.mem_map.mpr ⟨_, m₂, by rw [← e₁]⟩) h.1
    · exact absurd (List.mem_map.mpr ⟨_, m₁, by rw [← e₂]⟩) h.1
    · exact ih h.2 m₁ m₂

/-! ### C1: the drift analyzer -/

lemma check_drift_tickers (cur : List (String × ℚ)) (θ : ℚ) :
    ∀ tgt : List (String × ℚ),
      (check_drift cur tgt θ).map Alert.ticker
        = (tgt.filter fun tp => decide (θ < |(cur.lookup tp.1).getD 0 - tp.2|)).map Prod.fst
  | [] => rfl
  | (k, tv) :: rest => by
    by_cases h : θ < |(cur.lookup k).getD 0 - tv|
    · simp only [check_drift, List.filter_cons]
      rw [if_pos h, decide_eq_true h]
      simp [mkAlert, check_drift_tickers cur θ rest]
    · simp only [check_drift, List.filter_cons]
      rw [if_neg h, decide_eq_false h]
      simp [check_drift_tickers cur θ rest]

lemma mem_check_drift (cur : List (String × ℚ)) (θ : ℚ) (a : Alert) :
    ∀ tgt : List (String × ℚ),
      (a ∈ check_drift cur tgt θ ↔
        ∃ tp ∈ tgt, θ < |(cur.lookup tp.1).getD 0 - tp.2| ∧ a = mkAlert cur tp.1 tp.2)
  | [] => by simp [check_drift]
  | (k, tv) :: rest => by
    by_cases h : θ < |(cur.lookup k).getD 0 - tv|
    · simp only [check_drift]
      rw [if_pos h]
      constructor
      · intro hm
        rcases List.mem_cons.mp hm with hm | hm
        · exact ⟨(k, tv), List.mem_cons_self _ _, h, hm⟩
        · obtain ⟨tp, htp, hθ, ha⟩ := (mem_check_drift cur θ a rest).mp hm
          exact ⟨tp, List.mem_cons_of_mem _ htp, hθ, ha⟩
      · rintro ⟨tp, htp, hθ, ha⟩
        rcases List.mem_cons.mp htp with htp | htp
        · subst htp
          rw [ha]
          exact List.mem_cons_self _ _
        · exact List.mem_cons_of_mem _
            ((mem_check_drift cur θ a rest).mpr ⟨tp, htp, hθ, ha⟩)
    · simp only [check_drift]
      rw [if_neg h]
      rw [mem_check_drift cur θ a rest]
      constructor
      · rintro ⟨tp, htp, hθ, ha⟩
        exact ⟨tp, List.mem_cons_of_mem _ htp, hθ, ha⟩
      · rintro ⟨tp, htp, hθ, ha⟩
        rcases List.mem_cons.mp htp with htp | htp
        · exact absurd (by rw [htp] at hθ; exact hθ) h
        · exact ⟨tp, htp, hθ, ha⟩

/-- C1.  `check_drift` emits an alert for a ticker iff `|current − target|`
strictly exceeds the threshold (with `current` defaulting to `0` for tickers
absent from the current allocations), the direction is `"OVER"` exactly for
positive drift and `"UNDER"` otherwise, and the alert list follows the
iteration order of the target-allocation map. -/
theorem check_drift_correct (cur tgt : List (String × ℚ)) (θ : ℚ)
    (hnd : (tgt.map Prod.fst).Nodup) :
    ((check_drift cur tgt θ).map Alert.ticker
        = (tgt.filter fun tp => decide (θ < |(cur.lookup tp.1).getD 0 - tp.2|)).map Prod.fst)
    ∧ (∀ t tv, (t, tv) ∈ tgt →
        ((∃ a ∈ check_drift cur tgt θ, a.ticker = t) ↔ θ < |(cur.lookup t).getD 0 - tv|))
    ∧ (∀ a ∈ check_drift cur tgt θ,
        (a.direction = "OVER" ↔ 0 < a.drift) ∧ (a.direction = "UNDER" ↔ a.drift ≤ 0)) := by
  refine ⟨check_drift_tickers cur θ tgt, ?_, ?_⟩
  · intro t tv htv
    constructor
    · rintro ⟨a, ha, hticker⟩
      obtain ⟨tp, htp, hθ, ha⟩ := (mem_check_drift cur θ a tgt).mp ha
      have ht1 : tp.1 = t := by rw [ha] at hticker; exact hticker
      have : tp.2 = tv := by
        refine eq_snd_of_nodup_keys hnd ?_ htv
        rw [← ht1]; exact htp
      rw [← ht1, ← this]; exact hθ
    · intro hθ
      refine ⟨mkAlert cur t tv, ?_, rfl⟩
      exact (mem_check_drift cur θ _ tgt).mpr ⟨(t, tv), htv, hθ, rfl⟩
  · intro a ha
    obtain ⟨tp, -, hθ, ha⟩ := (mem_check_drift cur θ a tgt).mp ha
    subst ha
    have hdir : (mkAlert cur tp.1 tp.2).direction
        = if 0 < (cur.lookup tp.1).getD 0 - tp.2 then "OVER" else "UNDER" := rfl
    have hdr : (mkAlert cur tp.1 tp.2).drift
        = ((cur.lookup tp.1).getD 0 - tp.2) * 100 := rfl
    by_cases hpos : 0 < (cur.lookup tp.1).getD 0 - tp.2
    · rw [hdir, hdr, if_pos hpos]
      refine ⟨⟨fun _ => mul_pos hpos (by norm_num), fun _ => rfl⟩, ?_, ?_⟩
      · intro hcontra; exact absurd hcontra (by simp)
      · intro hle
        exact absurd hle (not_le.mpr (mul_pos hpos (by norm_num)))
    · rw [hdir, hdr, if_neg hpos]
      refine ⟨⟨?_, ?_⟩, fun _ => ?_, fun _ => rfl⟩
      · intro hcontra; exact absurd hcontra (by simp)
      · intro hlt
        have : 0 < (cur.lookup tp.1).getD 0 - tp.2 := by nlinarith
        exact absurd this hpos
      · have := not_lt.mp hpos
        nlinarith

/-- Witness for C1: on target `{A: 0.5, B: 0.5}` with current `{A: 0.6}`
(`B` unresolved, hence 0) and threshold `0.05`, both tickers alert, in
target order. -/
theorem check_drift_correct_witness :
    (check_drift [("A", 3/5)] [("A", 1/2), ("B", 1/2)] (1/20)).map Alert.ticker
      = ["A", "B"] := by
  have h := (check_drift_correct [("A", 3/5)] [("A", 1/2), ("B", 1/2)] (1/20)
    (by simp)).1
  rw [h]
  have eA : (List.lookup "A" [("A", (3:ℚ)/5)]) = some (3/5) := lookup_cons_self "A" _ _
  have eB : (List.lookup "B" [("A", (3:ℚ)/5)]) = none := by
    rw [lookup_cons_ne (by simp)]
    rfl
  rw [List.filter_cons, List.filter_cons, List.filter_nil, eA, eB]
  norm_num [abs]

/-! ### C2: the portfolio-value calculator -/

lemma cpv_snd (holdings prices : List (String × ℚ)) :
    (calculate_portfolio_value holdings prices).2
      = holdings.filterMap (fun hp =>
          match prices.lookup hp.1 with
          | some price => some (hp.1, hp.2 * price)
          | none => none) := rfl

lemma cpv_lookup_some {holdings prices : List (String × ℚ)} {t : String} {s p : ℚ}
    (hh : holdings.lookup t = some s) (hp : prices.lookup t = some p) :
    ((calculate_portfolio_value holdings prices).2).lookup t = some (s * p) := by
  rw [cpv_snd]
  induction holdings with
  | nil => simp [List.lookup] at hh
  | cons hd tl ih =>
    obtain ⟨k, v⟩ := hd
    by_cases hk : t = k
    · subst hk
      rw [lookup_cons_self] at hh
      rw [List.filterMap_cons]
      simp only [hp]
      rw [Option.some_inj.mp hh] at *
      simp [lookup_cons_self, hp]
    · rw [lookup_cons_ne hk] at hh
      rw [List.filterMap_cons]
      cases hpk : prices.lookup k with
      | none => simpa using ih hh
      | some q => simpa [lookup_cons_ne hk] using ih hh

lemma cpv_lookup_none_price {prices : List (String × ℚ)} {t : String}
    (hp : prices.lookup t = none) (holdings : List (String × ℚ)) :
    ((calculate_portfolio_value holdings prices).2).lookup t = none := by
  rw [cpv_snd]
  induction holdings with
  | nil => simp
  | cons hd tl ih =>
    obtain ⟨k, v⟩ := hd
    rw [List.filterMap_cons]
    cases hpk : prices.lookup k with
    | none => simpa using ih
    | some q =>
      have hk : t ≠ k := by
        intro he; rw [he, hpk] at hp; exact Option.noConfusion hp
      simpa [lookup_cons_ne hk] using ih

lemma cpv_lookup_none_holdings {holdings : List (String × ℚ)} {t : String}
    (hh : holdings.lookup t = none) (prices : List (String × ℚ)) :
    ((calculate_portfolio_value holdings prices).2).lookup t = none := by
  rw [cpv_snd]
  induction holdings with
  | nil => simp
  | cons hd tl ih =>
    obtain ⟨k, v⟩ := hd
    have hk : t ≠ k := by
      intro he; rw [he, lookup_cons_self] at hh; exact Option.noConfusion hh
    rw [lookup_cons_ne hk] at hh
    rw [List.filterMap_cons]
    cases hpk : prices.lookup k with
    | none => simpa using ih hh
    | some q => simpa [lookup_cons_ne hk] using ih hh

lemma cpv_keys (holdings prices : List (String × ℚ)) :
    ((calculate_portfolio_value holdings prices).2).map Prod.fst
      = (holdings.filter fun hp => (prices.lookup hp.1).isSome).map Prod.fst := by
  rw [cpv_snd]
  induction holdings with
  | nil => rfl
  | cons hd tl ih =>
    obtain ⟨k, v⟩ := hd
    rw [List.filterMap_cons, List.filter_cons]
    cases hpk : prices.lookup k with
    | none => simpa [hpk] using ih
    | some q => simpa [hpk] using ih

/-- C2.  `calculate_portfolio_value` returns a value map whose entries are
exactly the tickers present in both the holdings and the prices — each mapped
to `shares × price` — and a total equal to the sum of the mapped values;
unpriced holdings are absent from the map (not zeroed). -/
theorem calculate_portfolio_value_correct (holdings prices : List (String × ℚ)) :
    ((calculate_portfolio_value holdings prices).1
        = (((calculate_portfolio_value holdings prices).2).map Prod.snd).sum)
    ∧ (∀ t s p, holdings.lookup t = some s → prices.lookup t = some p →
        ((calculate_portfolio_value holdings prices).2).lookup t = some (s * p))
    ∧ (∀ t, prices.lookup t = none →
        ((calculate_portfolio_value holdings prices).2).lookup t = none)
    ∧ (∀ t, holdings.lookup t = none →
        ((calculate_portfolio_value holdings prices).2).lookup t = none)
    ∧ (((calculate_portfolio_value holdings prices).2).map Prod.fst
        = (holdings.filter fun hp => (prices.lookup hp.1).isSome).map Prod.fst) :=
  ⟨rfl,
   fun _ _ _ hh hp => cpv_lookup_some hh hp,
   fun _ hp => cpv_lookup_none_price hp holdings,
   fun _ hh => cpv_lookup_none_holdings hh prices,
   cpv_keys holdings prices⟩

/-- Witness for C2: with holdings `{A: 100, B: 5}` and prices `{A: 10}`,
the value map holds `A ↦ 100 × 10`. -/
theorem calculate_portfolio_value_correct_witness :
    ((calculate_portfolio_value [("A", 100), ("B", 5)] [("A", 10)]).2).lookup "A"
      = some (100 * 10) :=
  (calculate_portfolio_value_correct [("A", 100), ("B", 5)] [("A", 10)]).2.1
    "A" 100 10 (by simp [List.lookup]) (by simp [List.lookup])

/-! ### C3: the allocation calculator -/

lemma sum_map_div (l : List ℚ) (c : ℚ) :
    (l.map (fun x => x / c)).sum = l.sum / c := by
  induction l with
  | nil => simp
  | cons x xs ih => simp [ih, add_div]

/-- C3.  Feeding `calculate_current_allocations` the value map and total
produced by the portfolio calculator: when the total is positive the
fractions sum to exactly `1` (so certainly within `1e-9` of `1.0`), and when
the total is zero every ticker of the value map is assigned `0`; the function
is total, so no division error can occur. -/
theorem calculate_current_allocations_correct (position_values : List (String × ℚ)) :
    (0 < (position_values.map Prod.snd).sum →
        ((calculate_current_allocations position_values
            ((position_values.map Prod.snd).sum)).map Prod.snd).sum = 1)
    ∧ ((position_values.map Prod.snd).sum = 0 →
        calculate_current_allocations position_values
            ((position_values.map Prod.snd).sum)
          = position_values.map (fun p => (p.1, 0))) := by
  constructor
  · intro hpos
    rw [calculate_current_allocations, if_neg (ne_of_gt hpos)]
    rw [List.map_map]
    have : (Prod.snd ∘ fun p : String × ℚ =>
        (p.1, p.2 / (position_values.map Prod.snd).sum))
        = (fun p : String × ℚ => p.2 / (position_values.map Prod.snd).sum) := rfl
    rw [this]
    have : position_values.map
        (fun p : String × ℚ => p.2 / (position_values.map Prod.snd).sum)
        = (position_values.map Prod.snd).map
            (fun x => x / (position_values.map Prod.snd).sum) := by
      rw [List.map_map]; rfl
    rw [this, sum_map_div, div_self (ne_of_gt hpos)]
  · intro hzero
    rw [calculate_current_allocations, if_pos hzero]

/-- Witness for C3: value map `{A: 1, B: 3}` has total `4 > 0` and the
computed fractions sum to `1`. -/
theorem calculate_current_allocations_correct_witness :
    ((calculate_current_allocations [("A", (1:ℚ)), ("B", 3)]
        (([("A", (1:ℚ)), ("B", 3)].map Prod.snd).sum)).map Prod.snd).sum = 1 :=
  (calculate_current_allocations_correct [("A", (1:ℚ)), ("B", 3)]).1 (by norm_num)

/-! ### The main pipeline (`if __name__ == "__main__"`, lines 355-424) -/

/-- `is_warmup_period()` (lines 91-97): `(datetime.now() - start_date).days <
WARMUP_PERIOD_DAYS` with `WARMUP_PERIOD_DAYS = 14`.  Instants are modelled in
seconds; Python `timedelta.days` is the floor of the difference over one day
(86400 s), which is `Int.fdiv`. -/
def is_warmup_period (nowSec startSec : ℤ) : Bool :=
  Int.fdiv (nowSec - startSec) 86400 < 14

/-- One row of `portfolio_summary["positions"]` (lines 399-406). -/
structure Position where
  shares : ℚ
  price : ℚ
  value : ℚ
  target : ℚ
  current : ℚ
deriving DecidableEq, Repr

/-- The row `portfolio_summary["positions"][ticker]` built for the target
entry `(t, tv)` (lines 399-406): every field defaults to `0` via `.get`
when the ticker is missing from the respective map. -/
def summaryRow (holdings prices : List (String × ℚ)) (t : String) (tv : ℚ) :
    Position :=
  { shares := (holdings.lookup t).getD 0
    price := (prices.lookup t).getD 0
    value := (((calculate_portfolio_value holdings prices).2).lookup t).getD 0
    target := tv
    current := ((calculate_current_allocations
        (calculate_portfolio_value holdings prices).2
        (calculate_portfolio_value holdings prices).1).lookup t).getD 0 }

/-- The observable outcome of one run of `__main__`: the computed total,
alert list, the summary passed to `send_email`, and whether/how `send_email`
was invoked (`none` = not invoked, `some b` = invoked with
`is_daily_summary = b`). -/
structure RunResult where
  total_value : ℚ
  alerts : List Alert
  positions : List (String × Position)
  email : Option Bool
deriving DecidableEq, Repr

/-- The `__main__` pipeline from the point the price map is available
(lines 370-418): abort with `ValueError("Could not fetch any prices")` on an
empty price map, otherwise compute values, allocations and drift, build the
portfolio summary keyed by the target allocations, and decide the email
action (`warmup` was computed from `is_warmup_period` at line 366). -/
def run_main (holdings target_allocations prices : List (String × ℚ))
    (warmup : Bool) (threshold : ℚ) : Except String RunResult :=
  if prices.isEmpty then
    .error "Could not fetch any prices"
  else
    let tv := calculate_portfolio_value holdings prices
    let total_value := tv.1
    let position_values := tv.2
    let current_allocations := calculate_current_allocations position_values total_value
    let alerts := check_drift current_allocations target_allocations threshold
    let positions := target_allocations.map (fun tp =>
      (tp.1, summaryRow holdings prices tp.1 tp.2))
    let email := if warmup then some true
      else if alerts.isEmpty then none else some false
    .ok { total_value := total_value, alerts := alerts
          positions := positions, email := email }

/-- C4.  An empty price map makes the run fail with the fatal
`"Could not fetch any prices"` error before any downstream stage produces a
result; a non-empty price map never trips that check, and the run returns
normally. -/
theorem no_prices_fatal (holdings target_allocations prices : List (String × ℚ))
    (warmup : Bool) (threshold : ℚ) :
    (prices = [] →
      run_main holdings target_allocations prices warmup threshold
        = .error "Could not fetch any prices")
    ∧ (prices ≠ [] →
      ∃ r, run_main holdings target_allocations prices warmup threshold = .ok r) := by
  constructor
  · intro h
    subst h
    rfl
  · intro h
    have : prices.isEmpty = false := by
      cases prices with
      | nil => exact absurd rfl h
      | cons hd tl => rfl
    rw [run_main, this]
    exact ⟨_, rfl⟩

/-- Witness for C4: the empty price map aborts the run with the fatal error. -/
theorem no_prices_fatal_witness :
    run_main [("A", 1)] [("A", 1)] [] false (1/20)
      = .error "Could not fetch any prices" :=
  (no_prices_fatal [("A", 1)] [("A", 1)] [] false (1/20)).1 rfl

/-- C7.  `is_warmup` holds exactly when the whole-day difference between now
and the start date is strictly below 14; during warm-up `send_email` is
invoked with `is_daily_summary = true` whatever the alert list, and after
warm-up it is invoked (with `is_daily_summary = false`) exactly when the
alert list is non-empty. -/
theorem warmup_email_policy (holdings target_allocations prices : List (String × ℚ))
    (nowSec startSec : ℤ) (threshold : ℚ) (r : RunResult)
    (hr : run_main holdings target_allocations prices
        (is_warmup_period nowSec startSec) threshold = .ok r) :
    (is_warmup_period nowSec startSec = true ↔ Int.fdiv (nowSec - startSec) 86400 < 14)
    ∧ (Int.fdiv (nowSec - startSec) 86400 < 14 → r.email = some true)
    ∧ (¬ Int.fdiv (nowSec - startSec) 86400 < 14 →
        ((r.email = some false ↔ r.alerts ≠ []) ∧ (r.email = none ↔ r.alerts = []))) := by
  have hempty : prices.isEmpty = false := by
    cases hp : prices.isEmpty
    · rfl
    · rw [run_main, hp] at hr
      exact absurd hr (by simp)
  rw [run_main, hempty] at hr
  simp only [Bool.false_eq_true, if_false] at hr
  have hrec := (Except.ok.injEq _ _).mp hr
  constructor
  · simp [is_warmup_period]
  constructor
  · intro hdays
    have hw : is_warmup_period nowSec startSec = true := by
      simp [is_warmup_period, hdays]
    rw [hw] at hrec
    rw [← hrec]
    simp
  · intro hdays
    have hw : is_warmup_period nowSec startSec = false := by
      simp [is_warmup_period, hdays]
    rw [hw] at hrec
    rw [← hrec]
    simp only [Bool.false_eq_true, if_false]
    cases halerts : (check_drift
        (calculate_current_allocations
          (calculate_portfolio_value holdings prices).2
          (calculate_portfolio_value holdings prices).1)
        target_allocations threshold).isEmpty with
    | true =>
      have hnil := List.isEmpty_iff.mp halerts
      simp [halerts, hnil]
    | false =>
      have hne : check_drift
          (calculate_current_allocations
            (calculate_portfolio_value holdings prices).2
            (calculate_portfolio_value holdings prices).1)
          target_allocations threshold ≠ [] := by
        intro hn
        rw [hn] at halerts
        simp at halerts
      simp [halerts, hne]

/-- Witness for C7: three days after the start date (day difference 0 < 14
here), the run emails the daily summary even though no alert fired. -/
theorem warmup_email_policy_witness :
    ({ total_value := 1, alerts := [], positions := [], email := some true }
      : RunResult).email = some true := by
  have hr : run_main [("A", 1)] [] [("A", 1)] (is_warmup_period 259200 0) 0
      = .ok { total_value := 1, alerts := [], positions := [], email := some true } := by
    have hw : is_warmup_period 259200 0 = true := by decide
    rw [run_main, hw]
    norm_num [calculate_portfolio_value, calculate_current_allocations,
      check_drift, List.lookup, List.filterMap]
  exact (warmup_email_policy [("A", 1)] [] [("A", 1)] 259200 0 0 _ hr).2.1 (by decide)

/-! ### C5: the bulk attempt of `fetch_current_prices` (lines 110-129) -/

/-- A cell of the `Close` data of a downloaded frame: `none` models a missing
value (pandas `NaN`); note Python's `float(...)` passes `NaN` through, so a
stored `NaN` is still a recorded dict entry. -/
abbrev Cell := Option ℚ

/-- The frame returned by `yf.download(tickers, period="5d", ...)` (line 113),
restricted to the parts the code reads: `empty` is `data.empty`;
`closeSeries` is `data['Close']` viewed as one series, oldest first
(`iloc[-1]` = last element), the view the code takes for a one-ticker
request; `closeTable` is `data['Close']` viewed column-by-column, the view
taken for a multi-ticker request. -/
structure Frame where
  empty : Bool
  closeSeries : List Cell
  closeTable : List (String × List Cell)
deriving DecidableEq, Repr

/-- `close_prices.dropna()` followed by `.iloc[-1]` (lines 123-125): the most
recent non-missing closing price of a column, when one exists. -/
def mostRecentClose (col : List Cell) : Option ℚ :=
  (col.filterMap id).getLast?

/-- The bulk attempt of `fetch_current_prices` (lines 110-129): the `prices`
dict after the first `try` block, given that the download call returned
`data` (a raised download exception is caught at line 128 and leaves the
dict empty).  For a single-ticker request the code stores
`float(data['Close'].iloc[-1])` without `dropna()` (lines 116-118), so a
missing last value is stored as-is; for several tickers each column is
`dropna()`-ed and skipped when no value remains (lines 120-127). -/
def bulk_attempt (tickers : List String) (data : Frame) : List (String × Cell) :=
  if data.empty then []
  else
    match tickers with
    | [t] =>
      if data.closeSeries.isEmpty then []
      else [(t, data.closeSeries.getLast?.getD none)]
    | _ =>
      tickers.filterMap (fun t =>
        match data.closeTable.lookup t with
        | none => none
        | some col =>
          match mostRecentClose col with
          | none => none
          | some p => some (t, some p))

lemma lookup_filterMap_pair_of_none {γ δ : Type _} (f : String → Option γ)
    (g : String → γ → δ) {t : String} (hf : f t = none) :
    ∀ ts : List String,
      (ts.filterMap (fun u => (f u).map (fun c => (u, g u c)))).lookup t = none
  | [] => rfl
  | u :: rest => by
    rw [List.filterMap_cons]
    cases hfu : f u with
    | none => simpa using lookup_filterMap_pair_of_none f g hf rest
    | some c =>
      have hne : t ≠ u := by
        intro he; rw [he, hfu] at hf; exact Option.noConfusion hf
      simpa [lookup_cons_ne hne] using lookup_filterMap_pair_of_none f g hf rest

lemma lookup_filterMap_pair {γ δ : Type _} (f : String → Option γ)
    (g : String → γ → δ) {t : String} :
    ∀ ts : List String, t ∈ ts →
      (ts.filterMap (fun u => (f u).map (fun c => (u, g u c)))).lookup t
        = (f t).map (g t)
  | [] => by intro h; simp at h
  | u :: rest => by
    intro hmem
    rw [List.filterMap_cons]
    by_cases he : t = u
    · subst he
      cases hft : f t with
      | none => simpa using lookup_filterMap_pair_of_none f g hft rest
      | some c => simp [lookup_cons_self]
    · have hrest : t ∈ rest := by
        rcases List.mem_cons.mp hmem with h | h
        · exact absurd h he
        · exact h
      cases hfu : f u with
      | none => simpa using lookup_filterMap_pair f g rest hrest
      | some c => simpa [lookup_cons_ne he] using lookup_filterMap_pair f g rest hrest

/-- C5 (amended).  In the bulk attempt, for a request of two or more tickers
the recorded price of each requested ticker is the most recent non-missing
closing price of its column (and a ticker with none, or no column, stays
unresolved); for a single-ticker request, however, the code records the LAST
closing value of the range whether or not it is missing, provided the series
is non-empty. -/
theorem bulk_attempt_correct (tickers : List String) (data : Frame) :
    (∀ t, tickers.length ≠ 1 → t ∈ tickers →
      (bulk_attempt tickers data).lookup t =
        if data.empty then none
        else ((data.closeTable.lookup t).bind mostRecentClose).map some)
    ∧ (∀ t, tickers = [t] →
      bulk_attempt tickers data =
        if data.empty ∨ data.closeSeries.isEmpty then []
        else [(t, data.closeSeries.getLast?.getD none)]) := by
  have hfun : (fun u =>
      match data.closeTable.lookup u with
      | none => none
      | some col =>
        match mostRecentClose col with
        | none => none
        | some p => some (u, (some p : Cell)))
      = (fun u => (((data.closeTable.lookup u).bind mostRecentClose)).map
          (fun p => (u, (some p : Cell)))) := by
    funext u
    cases data.closeTable.lookup u with
    | none => rfl
    | some col =>
      cases hm : mostRecentClose col with
      | none => simp [hm]
      | some p => simp [hm]
  constructor
  · intro t hlen hmem
    cases hempty : data.empty with
    | true => simp [bulk_attempt, hempty]
    | false =>
      rw [if_neg (by simp [hempty])]
      cases tickers with
      | nil => simp at hmem
      | cons a rest =>
        cases rest with
        | nil => exact absurd rfl hlen
        | cons b rest2 =>
          have heq : bulk_attempt (a :: b :: rest2) data
              = (a :: b :: rest2).filterMap (fun u =>
                  (((data.closeTable.lookup u).bind mostRecentClose)).map
                    (fun c => (u, (some c : Cell)))) := by
            rw [← hfun]
            simp [bulk_attempt, hempty]
          rw [heq]
          exact lookup_filterMap_pair
            (fun u => (data.closeTable.lookup u).bind mostRecentClose)
            (fun _ c => (some c : Cell)) _ hmem
  · intro t ht
    subst ht
    cases hempty : data.empty with
    | true => simp [bulk_attempt, hempty]
    | false =>
      cases hser : data.closeSeries.isEmpty with
      | true => simp [bulk_attempt, hempty, hser]
      | false => simp [bulk_attempt, hempty, hser]

/-- A one-ticker download whose most recent cell is missing (`NaN`) while the
range still holds an earlier valid close of `10`. -/
def nanTailFrame : Frame :=
  { empty := false
    closeSeries := [some 10, none]
    closeTable := [("A", [some 10, none])] }

/-- Counterexample for C5: on a single-ticker request whose last close is
missing, the bulk attempt records the missing value for `"A"` (Python stores
`float(NaN)`) although the most recent non-missing close in the range is
`10` — the ticker is neither given that price nor left unresolved. -/
theorem bulk_attempt_single_nan_cex :
    bulk_attempt ["A"] nanTailFrame = [("A", (none : Cell))]
    ∧ mostRecentClose [some 10, none] = some 10
    ∧ (bulk_attempt ["A"] nanTailFrame).lookup "A" ≠ some (some 10) := by
  refine ⟨rfl, rfl, ?_⟩
  intro h
  rw [show (bulk_attempt ["A"] nanTailFrame).lookup "A" = some none from rfl] at h
  exact Option.noConfusion (Option.some_inj.mp h)

/-- Witness for C5 (amended): a two-ticker request; `"A"` has closes
`[NaN, 4]`, so its recorded price is the most recent non-missing close `4`. -/
theorem bulk_attempt_correct_witness :
    (bulk_attempt ["A", "B"]
      { empty := false
        closeSeries := []
        closeTable := [("A", [none, some 4]), ("B", [none])] }).lookup "A"
      = some (some 4) := by
  have h := (bulk_attempt_correct ["A", "B"]
    { empty := false
      closeSeries := []
      closeTable := [("A", [none, some 4]), ("B", [none])] }).1
    "A" (by simp) (by simp)
  rw [h]
  rfl

/-! ### C8: price extraction in the per-ticker fallback (lines 134-150) -/

/-- The `meta` object of the per-ticker chart response
(`data['chart']['result'][0]['meta']`, lines 143-146), restricted to the two
fields the code reads; `none` models a field that is absent (or JSON null). -/
structure ChartMeta where
  regularMarketPrice : Option ℚ
  previousClose : Option ℚ
deriving DecidableEq, Repr

/-- Python truthiness of an optional float: `None` and the float `0.0` are
falsy, every other float is truthy. -/
def pyTruthy (v : Option ℚ) : Bool :=
  match v with
  | none => false
  | some q => decide (q ≠ 0)

/-- Price extraction in the fallback loop (lines 146-148):
`price = meta.get('regularMarketPrice') or meta.get('previousClose')`
followed by `if price: prices[ticker] = float(price)`.  Returns the price
recorded for the ticker, or `none` when the ticker stays unresolved. -/
def fallback_extract (m : ChartMeta) : Option ℚ :=
  let price := if pyTruthy m.regularMarketPrice then m.regularMarketPrice
    else m.previousClose
  if pyTruthy price then price else none

/-- A response field carries a price when it is present with a usable
(Python-truthy, i.e. non-zero) value — the notion the code's `or` chain and
`if price:` guard test for. -/
def carries_price (v : Option ℚ) : Prop :=
  ∃ q, v = some q ∧ q ≠ 0

lemma pyTruthy_iff (v : Option ℚ) : pyTruthy v = true ↔ carries_price v := by
  cases v with
  | none => simp [pyTruthy, carries_price]
  | some q => simp [pyTruthy, carries_price]

/-- C8.  The fallback extracts `regularMarketPrice` whenever that field
carries a price, falls back to `previousClose` only when it does not, leaves
the ticker unresolved when neither carries one, and never records a value
that did not come from one of the two fields. -/
theorem fallback_extract_correct (m : ChartMeta) :
    (∀ q, m.regularMarketPrice = some q → q ≠ 0 → fallback_extract m = some q)
    ∧ (∀ q, ¬ carries_price m.regularMarketPrice →
        m.previousClose = some q → q ≠ 0 → fallback_extract m = some q)
    ∧ (¬ carries_price m.regularMarketPrice → ¬ carries_price m.previousClose →
        fallback_extract m = none)
    ∧ (∀ q, fallback_extract m = some q →
        m.regularMarketPrice = some q ∨ m.previousClose = some q) := by
  refine ⟨?_, ?_, ?_, ?_⟩
  · intro q hq hne
    have ht : pyTruthy m.regularMarketPrice = true := by
      rw [pyTruthy_iff]; exact ⟨q, hq, hne⟩
    simp [fallback_extract, ht, hq, pyTruthy, hne]
  · intro q hnc hq hne
    have hf : pyTruthy m.regularMarketPrice = false :=
      (Bool.not_eq_true _).mp (fun h => hnc ((pyTruthy_iff _).mp h))
    have ht : pyTruthy (some q) = true := by
      simp [pyTruthy, hne]
    simp only [fallback_extract]
    rw [hf]
    simp only [Bool.false_eq_true, if_false]
    rw [hq, ht]
    simp
  · intro hnc₁ hnc₂
    have hf₁ : pyTruthy m.regularMarketPrice = false :=
      (Bool.not_eq_true _).mp (fun h => hnc₁ ((pyTruthy_iff _).mp h))
    have hf₂ : pyTruthy m.previousClose = false :=
      (Bool.not_eq_true _).mp (fun h => hnc₂ ((pyTruthy_iff _).mp h))
    simp [fallback_extract, hf₁, hf₂]
  · intro q hq
    simp only [fallback_extract] at hq
    cases hrmp : pyTruthy m.regularMarketPrice with
    | true =>
      rw [hrmp] at hq
      simp at hq
      rw [hrmp] at hq
      simp at hq
      exact Or.inl hq
    | false =>
      rw [hrmp] at hq
      simp at hq
      cases hpc : pyTruthy m.previousClose with
      | true =>
        rw [hpc] at hq
        simp at hq
        exact Or.inr hq
      | false =>
        rw [hpc] at hq
        simp at hq

/-- Witness for C8: a response whose metadata holds
`regularMarketPrice = 7` resolves to `7`. -/
theorem fallback_extract_correct_witness :
    fallback_extract { regularMarketPrice := some 7, previousClose := none }
      = some 7 :=
  (fallback_extract_correct
    { regularMarketPrice := some 7, previousClose := none }).1
    7 rfl (by norm_num)

/-! ### C9: `get_env_variable` (lines 35-40) -/

/-- Python truthiness of `os.environ.get(name)`: `None` (variable absent) and
the empty string are falsy. -/
def pyTruthyStr (v : Option String) : Bool :=
  match v with
  | none => false
  | some s => !s.isEmpty

/-- `get_env_variable(name, required)` (lines 35-40): `value` is
`os.environ.get(name)` (`none` = variable absent); raise
`ValueError(f"Required environment variable ...")` when `required and not
value`, and return `value or ""` otherwise. -/
def get_env_variable (name : String) (value : Option String)
    (required : Bool := true) : Except String String :=
  if required && !(pyTruthyStr value) then
    .error ("Required environment variable " ++ name ++ " is not set")
  else
    .ok (if pyTruthyStr value then value.getD "" else "")

/-- C9.  For a required variable, the empty string is rejected with exactly
the same missing-variable error as an absent variable — so a required value
that parses downstream is never empty — while for a non-required variable
both absence and the empty string yield the empty-string default. -/
theorem get_env_variable_empty_like_missing (name : String) :
    (get_env_variable name (some "") true
        = .error ("Required environment variable " ++ name ++ " is not set")
      ∧ get_env_variable name none true = get_env_variable name (some "") true)
    ∧ (∀ s r, get_env_variable name (some s) true = .ok r → r ≠ "")
    ∧ (get_env_variable name (some "") false = .ok ""
      ∧ get_env_variable name none false = .ok "") := by
  refine ⟨⟨rfl, rfl⟩, ?_, rfl, rfl⟩
  intro s r hok hr
  subst hr
  cases hs : s.isEmpty with
  | true =>
    rw [get_env_variable] at hok
    simp [pyTruthyStr, hs] at hok
  | false =>
    rw [get_env_variable] at hok
    simp [pyTruthyStr, hs] at hok
    rw [hok] at hs
    exact absurd hs (by decide)

/-- Witness for C9: the non-empty value `"2026-01-01"` of a required
variable is returned, hence non-empty. -/
theorem get_env_variable_empty_like_missing_witness :
    ("2026-01-01" : String) ≠ "" :=
  (get_env_variable_empty_like_missing "START_DATE").2.1 "2026-01-01"
    "2026-01-01" rfl

/-! ### C6: the JSON configuration loaders (lines 43-76) -/

/-- The result of `json.loads` on a configuration string. -/
inductive Json where
  | null : Json
  | bool (b : Bool) : Json
  | num (q : ℚ) : Json
  | str (s : String) : Json
  | arr (elems : List Json) : Json
  | obj (fields : List (String × Json)) : Json

/-- The Python exceptions the loaders can surface: the `ValueError` raised
from a caught `json.JSONDecodeError` (the "parse error"), and the
`AttributeError` / `TypeError` that escape the `except` clause untouched. -/
inductive PyError where
  | valueError (msg : String) : PyError
  | attributeError (msg : String) : PyError
  | typeError (msg : String) : PyError
deriving DecidableEq, Repr

/-- `get_portfolio_holdings()` (lines 43-55), as a function of the
`json.loads` outcome on the `PORTFOLIO_HOLDINGS` value (`.error` = the
string was not valid JSON, raising `json.JSONDecodeError` with that
message): a decode error becomes the `ValueError` parse error.  On parse
success the code evaluates `list(holdings.keys())` in the log call at
line 52, still inside the `try` whose `except` catches only
`json.JSONDecodeError`: a parsed non-dict therefore raises an
`AttributeError` (no `.keys`) that propagates unchanged, while a parsed
dict is returned as-is — its values are never inspected. -/
def get_portfolio_holdings (parsed : Except String Json) : Except PyError Json :=
  match parsed with
  | .error e => .error (.valueError ("Invalid PORTFOLIO_HOLDINGS JSON: " ++ e))
  | .ok holdings =>
    match holdings with
    | .obj _ => .ok holdings
    | _ => .error (.attributeError "keys")

/-- `sum(allocations.values())` (line 69) for a parsed JSON value: a
non-object has no `.values()` (`AttributeError`); summing starts from the
int `0`, so a value that is neither a number nor a bool (Python bools are
ints) raises `TypeError`; otherwise the numeric total results. -/
def sum_json_values : Json → Except PyError ℚ
  | .obj fields => sumFields fields
  | _ => .error (.attributeError "values")
where
  /-- Left-to-right summation of the object's values. -/
  sumFields : List (String × Json) → Except PyError ℚ
    | [] => .ok 0
    | (_, v) :: rest =>
      match v with
      | .num q => (sumFields rest).map (fun acc => q + acc)
      | .bool b => (sumFields rest).map (fun acc => (if b then 1 else 0) + acc)
      | _ => .error (.typeError "unsupported operand type for +")

/-- `get_target_allocations()` (lines 58-76), as a function of the
`json.loads` outcome on the `TARGET_ALLOCATIONS` value: a decode error
becomes the `ValueError` parse error; on parse success the code computes
`sum(allocations.values())` inside the `try` (whose `except` catches only
`json.JSONDecodeError`, so an `AttributeError`/`TypeError` from the sum
propagates unchanged), emits at most a warning about the total, and returns
the parsed value as-is. -/
def get_target_allocations (parsed : Except String Json) : Except PyError Json :=
  match parsed with
  | .error e => .error (.valueError ("Invalid TARGET_ALLOCATIONS JSON: " ++ e))
  | .ok allocations =>
    match sum_json_values allocations with
    | .error e => .error e
    | .ok _ => .ok allocations

/-- A JSON value Python can add to a running int total: a number, or a bool. -/
def summable (j : Json) : Prop :=
  (∃ q, j = Json.num q) ∨ (∃ b, j = Json.bool b)

lemma sumFields_ok_iff (fields : List (String × Json)) :
    (∃ q, sum_json_values.sumFields fields = .ok q)
      ↔ ∀ kv ∈ fields, summable kv.2 := by
  induction fields with
  | nil => simp [sum_json_values.sumFields, summable]
  | cons hd tl ih =>
    obtain ⟨k, v⟩ := hd
    cases v with
    | num q =>
      have he : sum_json_values.sumFields ((k, Json.num q) :: tl)
          = (sum_json_values.sumFields tl).map (fun acc => q + acc) := rfl
      constructor
      · rintro ⟨s, hs⟩ kv hkv
        rcases List.mem_cons.mp hkv with h | h
        · rw [h]; exact Or.inl ⟨q, rfl⟩
        · rw [he] at hs
          cases hrest : sum_json_values.sumFields tl with
          | error e => rw [hrest] at hs; exact absurd hs (by simp [Except.map])
          | ok acc => exact ih.mp ⟨acc, hrest⟩ kv h
      · intro hall
        obtain ⟨acc, hacc⟩ := ih.mpr (fun kv hkv => hall kv (List.mem_cons_of_mem _ hkv))
        exact ⟨q + acc, by rw [he, hacc]; rfl⟩
    | bool b =>
      have he : sum_json_values.sumFields ((k, Json.bool b) :: tl)
          = (sum_json_values.sumFields tl).map
              (fun acc => (if b then 1 else 0) + acc) := rfl
      constructor
      · rintro ⟨s, hs⟩ kv hkv
        rcases List.mem_cons.mp hkv with h | h
        · rw [h]; exact Or.inr ⟨b, rfl⟩
        · rw [he] at hs
          cases hrest : sum_json_values.sumFields tl with
          | error e => rw [hrest] at hs; exact absurd hs (by simp [Except.map])
          | ok acc => exact ih.mp ⟨acc, hrest⟩ kv h
      · intro hall
        obtain ⟨acc, hacc⟩ := ih.mpr (fun kv hkv => hall kv (List.mem_cons_of_mem _ hkv))
        exact ⟨(if b then 1 else 0) + acc, by rw [he, hacc]; rfl⟩
    | null =>
      constructor
      · rintro ⟨s, hs⟩
        exact absurd hs (by rw [show sum_json_values.sumFields ((k, Json.null) :: tl)
          = .error (.typeError "unsupported operand type for +") from rfl]; simp)
      · intro hall
        have := hall (k, .null) (List.mem_cons_self _ _)
        simp [summable] at this
    | str s =>
      constructor
      · rintro ⟨r, hr⟩
        exact absurd hr (by rw [show sum_json_values.sumFields ((k, Json.str s) :: tl)
          = .error (.typeError "unsupported operand type for +") from rfl]; simp)
      · intro hall
        have := hall (k, .str s) (List.mem_cons_self _ _)
        simp [summable] at this
    | arr elems =>
      constructor
      · rintro ⟨r, hr⟩
        exact absurd hr (by rw [show sum_json_values.sumFields ((k, Json.arr elems) :: tl)
          = .error (.typeError "unsupported operand type for +") from rfl]; simp)
      · intro hall
        have := hall (k, .arr elems) (List.mem_cons_self _ _)
        simp [summable] at this
    | obj fs =>
      constructor
      · rintro ⟨r, hr⟩
        exact absurd hr (by rw [show sum_json_values.sumFields ((k, Json.obj fs) :: tl)
          = .error (.typeError "unsupported operand type for +") from rfl]; simp)
      · intro hall
        have := hall (k, .obj fs) (List.mem_cons_self _ _)
        simp [summable] at this

/-- C6 (amended).  The loaders fail with the `Invalid ... JSON` parse error
exactly when the configuration value is not syntactically valid JSON.  A
syntactically valid value of the wrong shape is NOT rejected with a parse
error: a parsed non-object makes both loaders raise an `AttributeError`
(from `holdings.keys()` resp. `allocations.values()`, escaping the `except`
that catches only `json.JSONDecodeError`); the holdings loader returns any
parsed OBJECT unvalidated, values included, while the target-allocations
loader returns a parsed object exactly when all its values are summable
(numbers/bools) and raises a `TypeError` otherwise — none of these is the
parse error. -/
theorem config_loader_shape_behaviour (parsed : Except String Json) :
    (∀ e, parsed = .error e →
      get_portfolio_holdings parsed
          = .error (.valueError ("Invalid PORTFOLIO_HOLDINGS JSON: " ++ e))
        ∧ get_target_allocations parsed
          = .error (.valueError ("Invalid TARGET_ALLOCATIONS JSON: " ++ e)))
    ∧ (∀ fields, parsed = .ok (.obj fields) →
        get_portfolio_holdings parsed = .ok (.obj fields))
    ∧ (∀ fields, parsed = .ok (.obj fields) →
        (get_target_allocations parsed = .ok (.obj fields)
          ↔ ∀ kv ∈ fields, summable kv.2))
    ∧ (∀ j, parsed = .ok j → (∀ fields, j ≠ .obj fields) →
        get_portfolio_holdings parsed = .error (.attributeError "keys")
          ∧ get_target_allocations parsed = .error (.attributeError "values")) := by
  refine ⟨?_, ?_, ?_, ?_⟩
  · intro e he
    subst he
    exact ⟨rfl, rfl⟩
  · intro fields hf
    subst hf
    rfl
  · intro fields hf
    subst hf
    have heval : get_target_allocations (.ok (.obj fields))
        = (match sum_json_values.sumFields fields with
           | .error e => (.error e : Except PyError Json)
           | .ok _ => .ok (.obj fields)) := rfl
    rw [heval]
    constructor
    · intro hok
      cases hsum : sum_json_values.sumFields fields with
      | error e => rw [hsum] at hok; exact absurd hok (by simp)
      | ok q => exact (sumFields_ok_iff fields).mp ⟨q, hsum⟩
    · intro hall
      obtain ⟨q, hq⟩ := (sumFields_ok_iff fields).mpr hall
      rw [hq]
  · intro j hj hnotobj
    subst hj
    cases j with
    | obj fields => exact absurd rfl (hnotobj fields)
    | null => exact ⟨rfl, rfl⟩
    | bool b => exact ⟨rfl, rfl⟩
    | num q => exact ⟨rfl, rfl⟩
    | str s => exact ⟨rfl, rfl⟩
    | arr elems => exact ⟨rfl, rfl⟩

/-- Counterexample for C6: the object `{"A": "x"}` is syntactically valid
JSON whose values are not numbers, yet the holdings loader raises no error
at all — it returns the object — so loading does not fail with a parse
error; and the valid JSON array `[]` makes both loaders raise an
`AttributeError` (from `.keys()` / `.values()`), again not the parse
error the claim requires. -/
theorem config_loader_no_shape_check_cex :
    get_portfolio_holdings (.ok (.obj [("A", Json.str "x")]))
        = .ok (.obj [("A", Json.str "x")])
    ∧ get_portfolio_holdings (.ok (Json.arr []))
        = .error (.attributeError "keys")
    ∧ get_target_allocations (.ok (Json.arr []))
        = .error (.attributeError "values") :=
  ⟨rfl, rfl, rfl⟩

/-- Witness for C6 (amended): a well-shaped object `{"A": 0.35}` loads
successfully through the target-allocations loader. -/
theorem config_loader_shape_behaviour_witness :
    get_target_allocations (.ok (.obj [("A", Json.num (35/100))]))
      = .ok (.obj [("A", Json.num (35/100))]) :=
  ((config_loader_shape_behaviour (.ok (.obj [("A", Json.num (35/100))]))).2.2.1
    [("A", Json.num (35/100))] rfl).mpr
    (by
      intro kv hkv
      simp at hkv
      rw [hkv]
      exact Or.inl ⟨35/100, rfl⟩)

/-! ### C10: holdings outside the target allocations -/

lemma cca_lookup (pv : List (String × ℚ)) (T : ℚ) (hT : T ≠ 0) (t : String) :
    (calculate_current_allocations pv T).lookup t
      = (pv.lookup t).map (fun v => v / T) := by
  rw [calculate_current_allocations, if_neg hT]
  exact lookup_map_pair pv (fun _ v => v / T) t

lemma cpv_values_nonneg {holdings prices : List (String × ℚ)}
    (hH : ∀ kv ∈ holdings, 0 ≤ kv.2) (hP : ∀ kv ∈ prices, 0 ≤ kv.2) :
    ∀ kv ∈ (calculate_portfolio_value holdings prices).2, 0 ≤ kv.2 := by
  rw [cpv_snd]
  intro kv hkv
  obtain ⟨hd, hmem, heq⟩ := List.mem_filterMap.mp hkv
  cases hl : prices.lookup hd.1 with
  | none => rw [hl] at heq; exact Option.noConfusion heq
  | some price =>
    rw [hl] at heq
    rw [← Option.some_inj.mp heq]
    exact mul_nonneg (hH hd hmem) (hP (hd.1, price) (lookup_mem hl))

lemma map_fst_map_pair {α β : Type _} (l : List (String × α)) (f : String → α → β) :
    (l.map (fun p => (p.1, f p.1 p.2))).map Prod.fst = l.map Prod.fst := by
  rw [List.map_map]
  rfl

/-- C10.  A priced holding `x` outside the target allocations is counted in
the total portfolio value (the total exceeds the run without `x` by exactly
`shares × price`), hence weakly dilutes — and, where a position has positive
value, strictly dilutes — every reported current-allocation fraction, yet
`x` never appears among the summary positions, whose keys are exactly the
target-allocation tickers. -/
theorem untargeted_holdings_dilute (h1 h2 targets prices : List (String × ℚ))
    (x : String) (s p : ℚ) (warmup : Bool) (θ : ℚ) (r r' : RunResult)
    (hxT : x ∉ targets.map Prod.fst)
    (hpx : prices.lookup x = some p)
    (hsp : 0 < s * p)
    (hHnn : ∀ kv ∈ h1 ++ h2, 0 ≤ kv.2)
    (hPnn : ∀ kv ∈ prices, 0 ≤ kv.2)
    (hTpos : 0 < (calculate_portfolio_value (h1 ++ h2) prices).1)
    (hr : run_main (h1 ++ (x, s) :: h2) targets prices warmup θ = .ok r)
    (hr' : run_main (h1 ++ h2) targets prices warmup θ = .ok r') :
    (r.positions.map Prod.fst = targets.map Prod.fst
      ∧ x ∉ r.positions.map Prod.fst)
    ∧ r.total_value = r'.total_value + s * p
    ∧ (∀ t pos pos', r.positions.lookup t = some pos →
        r'.positions.lookup t = some pos' →
        pos.current ≤ pos'.current
        ∧ (0 < pos.value → pos.current < pos'.current)) := by
  have hne : prices.isEmpty = false := by
    cases prices with
    | nil => exact absurd hpx (by simp [List.lookup])
    | cons a l => rfl
  rw [run_main, hne] at hr hr'
  simp only [Bool.false_eq_true, if_false] at hr hr'
  have hrec := (Except.ok.injEq _ _).mp hr
  have hrec' := (Except.ok.injEq _ _).mp hr'
  have hpvF : (calculate_portfolio_value (h1 ++ (x, s) :: h2) prices).2
      = (calculate_portfolio_value h1 prices).2
        ++ (x, s * p) :: (calculate_portfolio_value h2 prices).2 := by
    rw [cpv_snd, cpv_snd, cpv_snd, List.filterMap_append, List.filterMap_cons]
    simp only [hpx]
  have hpvR : (calculate_portfolio_value (h1 ++ h2) prices).2
      = (calculate_portfolio_value h1 prices).2
        ++ (calculate_portfolio_value h2 prices).2 := by
    rw [cpv_snd, cpv_snd, cpv_snd, List.filterMap_append]
  have hTF : (calculate_portfolio_value (h1 ++ (x, s) :: h2) prices).1
      = (calculate_portfolio_value (h1 ++ h2) prices).1 + s * p := by
    show (((calculate_portfolio_value (h1 ++ (x, s) :: h2) prices).2).map Prod.snd).sum
      = (((calculate_portfolio_value (h1 ++ h2) prices).2).map Prod.snd).sum + s * p
    rw [hpvF, hpvR]
    simp only [List.map_append, List.map_cons, List.sum_append, List.sum_cons]
    ring
  have hTFpos : 0 < (calculate_portfolio_value (h1 ++ (x, s) :: h2) prices).1 := by
    rw [hTF]
    exact add_pos hTpos hsp
  have hTRlt : (calculate_portfolio_value (h1 ++ h2) prices).1
      < (calculate_portfolio_value (h1 ++ (x, s) :: h2) prices).1 := by
    rw [hTF]
    exact lt_add_of_pos_right _ hsp
  have hkeys : r.positions.map Prod.fst = targets.map Prod.fst := by
    rw [← hrec]
    exact map_fst_map_pair targets (summaryRow (h1 ++ (x, s) :: h2) prices)
  refine ⟨⟨hkeys, ?_⟩, ?_, ?_⟩
  · rw [hkeys]
    exact hxT
  · have h1t : r.total_value
        = (calculate_portfolio_value (h1 ++ (x, s) :: h2) prices).1 := by
      rw [← hrec]
    have h2t : r'.total_value
        = (calculate_portfolio_value (h1 ++ h2) prices).1 := by
      rw [← hrec']
    rw [h1t, h2t, hTF]
  · intro t pos pos' hpos hpos'
    have hlF : r.positions.lookup t
        = (targets.lookup t).map (summaryRow (h1 ++ (x, s) :: h2) prices t) := by
      rw [← hrec]
      exact lookup_map_pair targets (summaryRow (h1 ++ (x, s) :: h2) prices) t
    have hlR : r'.positions.lookup t
        = (targets.lookup t).map (summaryRow (h1 ++ h2) prices t) := by
      rw [← hrec']
      exact lookup_map_pair targets (summaryRow (h1 ++ h2) prices) t
    rw [hlF] at hpos
    rw [hlR] at hpos'
    obtain ⟨tv, htv, hposF⟩ := Option.map_eq_some'.mp hpos
    obtain ⟨tv', htv2, hposR⟩ := Option.map_eq_some'.mp hpos'
    rw [htv] at htv2
    obtain rfl : tv = tv' := Option.some_inj.mp htv2
    have htx : t ≠ x := by
      intro he
      subst he
      exact hxT (List.mem_map.mpr ⟨(t, tv), lookup_mem htv, rfl⟩)
    have hlpv : ((calculate_portfolio_value (h1 ++ (x, s) :: h2) prices).2).lookup t
        = ((calculate_portfolio_value (h1 ++ h2) prices).2).lookup t := by
      rw [hpvF, hpvR]
      cases h1l : ((calculate_portfolio_value h1 prices).2).lookup t with
      | some v =>
        rw [lookup_append_of_some h1l, lookup_append_of_some h1l]
      | none =>
        rw [lookup_append_of_none h1l, lookup_append_of_none h1l,
          lookup_cons_ne htx]
    subst hposF
    subst hposR
    have hcurF : (summaryRow (h1 ++ (x, s) :: h2) prices t tv).current
        = ((((calculate_portfolio_value (h1 ++ (x, s) :: h2) prices).2).lookup t).map
            (fun v => v / (calculate_portfolio_value (h1 ++ (x, s) :: h2) prices).1)).getD 0 := by
      show ((calculate_current_allocations
          (calculate_portfolio_value (h1 ++ (x, s) :: h2) prices).2
          (calculate_portfolio_value (h1 ++ (x, s) :: h2) prices).1).lookup t).getD 0 = _
      rw [cca_lookup _ _ (ne_of_gt hTFpos) t]
    have hcurR : (summaryRow (h1 ++ h2) prices t tv).current
        = ((((calculate_portfolio_value (h1 ++ h2) prices).2).lookup t).map
            (fun v => v / (calculate_portfolio_value (h1 ++ h2) prices).1)).getD 0 := by
      show ((calculate_current_allocations
          (calculate_portfolio_value (h1 ++ h2) prices).2
          (calculate_portfolio_value (h1 ++ h2) prices).1).lookup t).getD 0 = _
      rw [cca_lookup _ _ (ne_of_gt hTpos) t]
    have hvalF : (summaryRow (h1 ++ (x, s) :: h2) prices t tv).value
        = (((calculate_portfolio_value (h1 ++ (x, s) :: h2) prices).2).lookup t).getD 0 := rfl
    cases hv : ((calculate_portfolio_value (h1 ++ h2) prices).2).lookup t with
    | none =>
      constructor
      · rw [hcurF, hcurR, hlpv, hv]
        simp
      · intro hvalpos
        rw [hvalF, hlpv, hv] at hvalpos
        simp at hvalpos
    | some v =>
      have hv0 : 0 ≤ v := cpv_values_nonneg hHnn hPnn (t, v) (lookup_mem hv)
      constructor
      · rw [hcurF, hcurR, hlpv, hv]
        simp only [Option.map_some', Option.getD_some]
        exact (div_le_div_iff₀ hTFpos hTpos).mpr
          (mul_le_mul_of_nonneg_left (le_of_lt hTRlt) hv0)
      · intro hvalpos
        rw [hvalF, hlpv, hv] at hvalpos
        simp only [Option.getD_some] at hvalpos
        rw [hcurF, hcurR, hlpv, hv]
        simp only [Option.map_some', Option.getD_some]
        exact (div_lt_div_iff₀ hTFpos hTpos).mpr
          (mul_lt_mul_of_pos_left hTRlt hvalpos)

/-- Witness for C10: holdings `{A: 1, B: 1}`, targets `{A: 1}`, prices
`{A: 2, B: 3}`.  The untargeted `B` pushes the total to `5`, so `A`'s
reported fraction drops from `1` (without `B`) to `2/5`. -/
theorem untargeted_holdings_dilute_witness :
    ({ shares := 1, price := 2, value := 2, target := 1, current := 2/5 }
        : Position).current
      ≤ ({ shares := 1, price := 2, value := 2, target := 1, current := 1 }
        : Position).current :=
  ((untargeted_holdings_dilute [("A", 1)] [] [("A", 1)] [("A", 2), ("B", 3)]
      "B" 1 3 false 0
      { total_value := 5
        alerts := [{ ticker := "A", target := 100, current := 40, drift := -60,
                     direction := "UNDER" }]
        positions := [("A", { shares := 1, price := 2, value := 2, target := 1,
                              current := 2/5 })]
        email := some false }
      { total_value := 2
        alerts := []
        positions := [("A", { shares := 1, price := 2, value := 2, target := 1,
                              current := 1 })]
        email := none }
      (by simp)
      rfl
      (by norm_num)
      (by
        intro kv hkv
        simp at hkv
        rw [hkv]
        norm_num)
      (by
        intro kv hkv
        simp at hkv
        rcases hkv with h | h <;> rw [h] <;> norm_num)
      (by
        simp [calculate_portfolio_value, List.filterMap, List.lookup])
      (by
        rw [run_main]
        simp [calculate_portfolio_value, calculate_current_allocations,
          check_drift, mkAlert, summaryRow, List.lookup, List.filterMap, abs]
        norm_num)
      (by
        rw [run_main]
        simp [calculate_portfolio_value, calculate_current_allocations,
          check_drift, mkAlert, summaryRow, List.lookup, List.filterMap, abs])).2.2
    "A" _ _ rfl rfl).1

end DriftChecker
